import Mathlib

/-!
Verification of the Limits_droper power-limit engine.

This file gives a shallow embedding of the repository's core logic:
the PL1/PL2 bit codec (`apply_pl_units` in the Qt GUI, `set_pl_units` in
`limits_ui.c`, `replace_power_field` in `mchbar_pl_write.c`), the
watts-to-units conversion (`build_units`), the MCHBAR base resolution
(`mchbar_get_base` in `mchbar_base.h`), the helper read-state parsing
(`HelperBackend::parse_state`), the limit-application workflow
(`apply_limits_internal`) and the register sync operations.

Machine integers (`uint64_t`, `uint32_t`, `uint16_t`) are embedded as `Nat`
with explicit masking where the C code truncates; `long long` is embedded
as `Int`; IEEE double arithmetic is idealised as exact rational (`ℚ`)
arithmetic, with C `llround` embedded as round-half-away-from-zero.
I/O outcomes (helper invocations, `pread`/`pwrite`, PCI config reads) are
passed in as explicit parameters.
-/

namespace LimitsDroper

/-- Embeds `apply_pl_units` from the Qt GUI source: splits the 64-bit register value
into its two 32-bit words, replaces bits [14:0] of each word with the masked
unit values, and reassembles.  `uint32_t` truncations are `&&& 0xffffffff`;
`~0x7FFFu` as a 32-bit constant is `0xFFFF8000`. -/
def apply_pl_units (cur pl1_units pl2_units : Nat) : Nat :=
  let lo := cur &&& 0xffffffff
  let hi := (cur >>> 32) &&& 0xffffffff
  let lo2 := (lo &&& 0xFFFF8000) ||| (pl1_units &&& 0x7FFF)
  let hi2 := (hi &&& 0xFFFF8000) ||| (pl2_units &&& 0x7FFF)
  (hi2 <<< 32) ||| lo2

/-- Embeds `set_pl_units` from `limits_ui.c`: textually identical to
`apply_pl_units` (the C and C++ sources duplicate the codec). -/
def set_pl_units (cur pl1_units pl2_units : Nat) : Nat :=
  let lo := cur &&& 0xffffffff
  let hi := (cur >>> 32) &&& 0xffffffff
  let lo2 := (lo &&& 0xFFFF8000) ||| (pl1_units &&& 0x7FFF)
  let hi2 := (hi &&& 0xFFFF8000) ||| (pl2_units &&& 0x7FFF)
  (hi2 <<< 32) ||| lo2

/-- Embeds `replace_power_field` from `mchbar_pl_write.c`: replaces bits [14:0]
of one 32-bit word, preserving the enable/clamp/time-window bits. -/
def replace_power_field (cur new_units : Nat) : Nat :=
  (cur &&& 0xFFFF8000) ||| (new_units &&& 0x7FFF)

/-- The two 15-bit unit fields as extracted by `print_pl` / `update_msr` /
`update_mmio`: PL1 is bits [14:0] of the low word, PL2 bits [14:0] of the
high word. -/
def decode_pl (val : Nat) : Nat × Nat :=
  (val &&& 0x7FFF, (val >>> 32) &&& 0x7FFF)

theorem set_pl_units_eq_apply (cur a b : Nat) :
    set_pl_units cur a b = apply_pl_units cur a b := rfl

theorem apply_pl_units_eq_replace (cur a b : Nat) :
    apply_pl_units cur a b =
      ((replace_power_field ((cur >>> 32) &&& 0xffffffff) b) <<< 32) |||
        replace_power_field (cur &&& 0xffffffff) a := rfl

theorem apply_pl_units_example :
    apply_pl_units 0 0x1B8 0x4E8 = 0x000004E8000001B8 := by decide

theorem testBit_mask15 (i : Nat) :
    (0x7FFF : Nat).testBit i = decide (i < 15) := by
  have h : (0x7FFF : Nat) = 2 ^ 15 - 1 := by decide
  rw [h, Nat.testBit_two_pow_sub_one]

theorem testBit_mask32 (i : Nat) :
    (0xffffffff : Nat).testBit i = decide (i < 32) := by
  have h : (0xffffffff : Nat) = 2 ^ 32 - 1 := by decide
  rw [h, Nat.testBit_two_pow_sub_one]

theorem testBit_maskHi (i : Nat) :
    (0xFFFF8000 : Nat).testBit i = (decide (15 ≤ i) && decide (i < 32)) := by
  have h : (0xFFFF8000 : Nat) = (2 ^ 17 - 1) <<< 15 := by decide
  rw [h, Nat.testBit_shiftLeft, Nat.testBit_two_pow_sub_one]
  rcases Nat.lt_or_ge i 15 with h15 | h15
  · have h1 : ¬ (i ≥ 15) := by omega
    have h2 : ¬ (15 ≤ i) := by omega
    simp [h1, h2]
  · have h1 : i ≥ 15 := h15
    simp only [h1, h15, decide_True, Bool.true_and]
    simp only [decide_eq_decide]
    omega

theorem testBit_mask64 (i : Nat) :
    (0xFFFF8000FFFF8000 : Nat).testBit i =
      ((decide (15 ≤ i) && decide (i < 32)) ||
        (decide (47 ≤ i) && decide (i < 64))) := by
  have h : (0xFFFF8000FFFF8000 : Nat) = (0xFFFF8000 <<< 32) ||| 0xFFFF8000 := by
    decide
  rw [h, Nat.testBit_or, Nat.testBit_shiftLeft, testBit_maskHi, testBit_maskHi]
  rcases Nat.lt_or_ge i 32 with h32 | h32
  · have c1 : ¬ (i ≥ 32) := by omega
    have c2 : ¬ (47 ≤ i) := by omega
    simp [c1, c2, h32]
  · have c1 : i ≥ 32 := h32
    have c2 : ¬ (i < 32) := by omega
    have c3 : 15 ≤ i := by omega
    simp only [c1, c2, c3, decide_True, decide_False, Bool.true_and,
      Bool.and_false, Bool.or_false, Bool.false_or]
    rcases Nat.lt_or_ge i 47 with h47 | h47
    · have a1 : ¬ (15 ≤ i - 32) := by omega
      have a2 : ¬ (47 ≤ i) := by omega
      simp [a1, a2]
    · have a1 : 15 ≤ i - 32 := by omega
      have a2 : 47 ≤ i := h47
      simp only [a1, a2, decide_True, Bool.true_and]
      simp only [decide_eq_decide]
      omega

/-- C1: the encode operation (`apply_pl_units` / `set_pl_units`) leaves every
bit outside the two 15-bit power fields unchanged: masking the result with
`~0x7FFF00007FFF` (that is, `0xFFFF8000FFFF8000`) gives the same value as
masking the input, so enable/clamp/time-window bits pass through verbatim. -/
theorem apply_pl_units_preserves_opaque (cur a b : Nat) :
    apply_pl_units cur a b &&& 0xFFFF8000FFFF8000 =
        cur &&& 0xFFFF8000FFFF8000 ∧
      set_pl_units cur a b &&& 0xFFFF8000FFFF8000 =
        cur &&& 0xFFFF8000FFFF8000 := by
  have hmain : apply_pl_units cur a b &&& 0xFFFF8000FFFF8000 =
      cur &&& 0xFFFF8000FFFF8000 := by
    apply Nat.eq_of_testBit_eq
    intro i
    simp only [apply_pl_units, Nat.testBit_and, Nat.testBit_or,
      Nat.testBit_shiftLeft, Nat.testBit_shiftRight, testBit_mask64,
      testBit_maskHi, testBit_mask15, testBit_mask32]
    rcases Nat.lt_or_ge i 15 with h15 | h15
    · have c1 : ¬ (15 ≤ i) := by omega
      have c2 : ¬ (47 ≤ i) := by omega
      simp [c1, c2]
    rcases Nat.lt_or_ge i 32 with h32 | h32
    · have c1 : 15 ≤ i := h15
      have c2 : i < 32 := h32
      have c3 : ¬ (i ≥ 32) := by omega
      have c4 : ¬ (i < 15) := by omega
      simp [c1, c2, c3, c4]
    rcases Nat.lt_or_ge i 47 with h47 | h47
    · have c1 : ¬ (i < 32) := by omega
      have c2 : ¬ (47 ≤ i) := by omega
      simp [c1, c2]
    rcases Nat.lt_or_ge i 64 with h64 | h64
    · have c1 : i ≥ 32 := by omega
      have c2 : ¬ (i < 32) := by omega
      have c3 : 15 ≤ i - 32 := by omega
      have c4 : i - 32 < 32 := by omega
      have c5 : ¬ (i - 32 < 15) := by omega
      have c6 : 47 ≤ i := h47
      have c7 : i < 64 := h64
      have c8 : 32 + (i - 32) = i := by omega
      have c9 : 15 ≤ i := by omega
      have c10 : ¬ (i < 15) := by omega
      simp [c1, c2, c3, c4, c5, c6, c7, c8, c9, c10]
    · have c1 : ¬ (i < 32) := by omega
      have c2 : ¬ (i < 64) := by omega
      simp [c1, c2]
  exact ⟨hmain, by rw [set_pl_units_eq_apply]; exact hmain⟩

/-- C2: decoding the result of encoding yields the masked inputs: bits [14:0]
of the low word and bits [14:0] of the high word of
`apply_pl_units raw a b` are exactly `(a &&& 0x7FFF, b &&& 0x7FFF)`. -/
theorem decode_encode_roundtrip (cur a b : Nat) :
    decode_pl (apply_pl_units cur a b) = (a &&& 0x7FFF, b &&& 0x7FFF) := by
  unfold decode_pl
  rw [Prod.mk.injEq]
  constructor
  · apply Nat.eq_of_testBit_eq
    intro i
    simp only [apply_pl_units, Nat.testBit_and, Nat.testBit_or,
      Nat.testBit_shiftLeft, Nat.testBit_shiftRight, testBit_maskHi,
      testBit_mask15, testBit_mask32]
    rcases Nat.lt_or_ge i 15 with h15 | h15
    · have c1 : ¬ (i ≥ 32) := by omega
      have c2 : ¬ (15 ≤ i) := by omega
      have c3 : i < 32 := by omega
      have c4 : i < 15 := h15
      simp [c1, c2, c3, c4]
    · have c1 : ¬ (i < 15) := by omega
      simp [c1]
  · apply Nat.eq_of_testBit_eq
    intro i
    simp only [apply_pl_units, Nat.testBit_and, Nat.testBit_or,
      Nat.testBit_shiftLeft, Nat.testBit_shiftRight, testBit_maskHi,
      testBit_mask15, testBit_mask32]
    rcases Nat.lt_or_ge i 15 with h15 | h15
    · have c1 : ¬ (32 + i < 32) := by omega
      have c2 : ¬ (32 + i < 15) := by omega
      have c3 : 32 + i ≥ 32 := by omega
      have c4 : 32 + i - 32 = i := by omega
      have c5 : ¬ (15 ≤ i) := by omega
      have c6 : i < 15 := h15
      have c7 : i < 32 := by omega
      simp [c1, c2, c3, c4, c5, c6, c7]
    · have c1 : ¬ (i < 15) := by omega
      simp [c1]

/-- C `llround` idealised on exact rationals: round half away from zero.
(`llround` returns `long long`; representability is tracked by explicit
bounds where it matters.) -/
def llround (q : ℚ) : Int :=
  if 0 ≤ q then ⌊q + 1/2⌋ else ⌈q - 1/2⌉

/-- Embeds `static_cast<std::uint64_t>` of a signed integer: two's-complement
wrap modulo `2^64`. -/
def toU64 (i : Int) : Nat := (i % (2 ^ 64 : Int)).toNat

/-- The per-field watts-to-units conversion of `build_units` in the GUI
source: guard `unit_watts <= 0.0`, compute
`static_cast<uint64_t>(llround(watts / unit_watts))`, and reject the result
when it is `0` or above `0x7FFF`. -/
def watts_to_units (w unit_watts : ℚ) : Option Nat :=
  if unit_watts ≤ 0 then none
  else if toU64 (llround (w / unit_watts)) = 0 ∨
      0x7FFF < toU64 (llround (w / unit_watts)) then none
  else some (toU64 (llround (w / unit_watts)))

/-- Embeds `build_units` from the GUI source: converts both requested watt values
with the shared unit scale, failing when either converted value is `0` or
above `0x7FFF`. -/
def build_units (unit_watts pl1_w pl2_w : ℚ) : Option (Nat × Nat) :=
  if unit_watts ≤ 0 then none
  else if toU64 (llround (pl1_w / unit_watts)) = 0 ∨
      toU64 (llround (pl2_w / unit_watts)) = 0 ∨
      0x7FFF < toU64 (llround (pl1_w / unit_watts)) ∨
      0x7FFF < toU64 (llround (pl2_w / unit_watts)) then none
  else some (toU64 (llround (pl1_w / unit_watts)),
    toU64 (llround (pl2_w / unit_watts)))

theorem build_units_eq_watts_to_units (u w1 w2 : ℚ) :
    build_units u w1 w2 =
      match watts_to_units w1 u, watts_to_units w2 u with
      | some n1, some n2 => some (n1, n2)
      | _, _ => none := by
  unfold build_units watts_to_units
  by_cases hu : u ≤ 0
  · simp [hu]
  · simp only [hu, if_false]
    by_cases h1 : toU64 (llround (w1 / u)) = 0 ∨ 0x7FFF < toU64 (llround (w1 / u)) <;>
      by_cases h2 : toU64 (llround (w2 / u)) = 0 ∨ 0x7FFF < toU64 (llround (w2 / u)) <;>
        simp [h1, h2] <;> omega

theorem llround_intCast (n : Int) : llround ((n : ℚ)) = n := by
  unfold llround
  by_cases h : (0 : ℚ) ≤ (n : ℚ)
  · rw [if_pos h, Int.floor_int_add]
    norm_num
  · rw [if_neg h, show (n : ℚ) - 1/2 = -(1/2) + n by ring, Int.ceil_add_int]
    norm_num

/-- C3 counterexample: at `w = -1`, `u = 1` the rounded quotient is `-1`,
which is neither `0` nor above `32767`, so the claim as stated says the
conversion succeeds; the code rejects it (the negative value wraps to a huge
unsigned one and fails the range check). -/
theorem watts_to_units_range_counterexample :
    ¬ (watts_to_units (-1) 1 = none ↔
        (llround ((-1 : ℚ) / 1) = 0 ∨ 32767 < llround ((-1 : ℚ) / 1))) := by
  have hm1 : llround ((-1 : ℚ) / 1) = -1 := by
    rw [show ((-1 : ℚ) / 1) = ((-1 : Int) : ℚ) by norm_num, llround_intCast]
  intro h
  have hfail : watts_to_units (-1) 1 = none := by
    unfold watts_to_units
    rw [if_neg (by norm_num), hm1]
    have ht : toU64 (-1) = 18446744073709551615 := by decide
    rw [ht]
    norm_num
  rw [hfail, hm1] at h
  have := h.mp rfl
  omega

/-- C3 (amended): for positive unit scale, when the rounded quotient is
representable in a signed 64-bit integer, the conversion fails exactly when
that quotient is ≤ 0 (zero, or negative — rejected via the unsigned
wrap-around) or exceeds 32767, and otherwise succeeds returning the rounded
quotient. -/
theorem watts_to_units_range (w u : ℚ) (hu : 0 < u)
    (hlo : -(2 ^ 63) ≤ llround (w / u)) (hhi : llround (w / u) < 2 ^ 63) :
    (watts_to_units w u = none ↔
        (llround (w / u) ≤ 0 ∨ 32767 < llround (w / u))) ∧
      ∀ n, watts_to_units w u = some n → (n : Int) = llround (w / u) := by
  unfold watts_to_units
  rw [if_neg (not_le.mpr hu)]
  have h1 : (toU64 (llround (w / u)) = 0 ∨ 0x7FFF < toU64 (llround (w / u)))
      ↔ (llround (w / u) ≤ 0 ∨ 32767 < llround (w / u)) := by
    unfold toU64
    omega
  by_cases hc : toU64 (llround (w / u)) = 0 ∨ 0x7FFF < toU64 (llround (w / u))
  · rw [if_pos hc]
    refine ⟨iff_of_true rfl (h1.mp hc), ?_⟩
    intro n hn
    exact absurd hn (by simp)
  · rw [if_neg hc]
    refine ⟨iff_of_false (by simp) (fun h => hc (h1.mpr h)), ?_⟩
    intro n hn
    obtain rfl : toU64 (llround (w / u)) = n := Option.some.inj hn
    unfold toU64
    unfold toU64 at hc
    omega

/-- Witness for C3 (amended) at the spec's worked example
`w = 55`, `u = 1/8` (so the rounded quotient is 440). -/
theorem watts_to_units_range_witness :
    (watts_to_units 55 (1/8) = none ↔
        (llround ((55 : ℚ) / (1/8)) ≤ 0 ∨ 32767 < llround ((55 : ℚ) / (1/8)))) ∧
      ∀ n, watts_to_units 55 (1/8) = some n →
        (n : Int) = llround ((55 : ℚ) / (1/8)) := by
  have h440 : llround ((55 : ℚ) / (1/8)) = 440 := by
    rw [show ((55 : ℚ) / (1/8)) = ((440 : Int) : ℚ) by norm_num, llround_intCast]
  exact watts_to_units_range 55 (1/8) (by norm_num) (by rw [h440]; norm_num)
    (by rw [h440]; norm_num)

/-- Embeds `kUvMvScale = 1.024` from the GUI source (exactly `128/125`). -/
def kUvMvScale : ℚ := 1024 / 1000

/-- Embeds `quantize_uv_mv` from the GUI source:
`std::llround(mv * kUvMvScale) / kUvMvScale`, with f64 arithmetic idealised
as exact rational arithmetic. -/
def quantize_uv_mv (mv : ℚ) : ℚ := (llround (mv * kUvMvScale) : ℚ) / kUvMvScale

/-- C9: the voltage-offset quantization is idempotent:
`quantize(quantize(x)) = quantize(x)` for every (exact-rational) input. -/
theorem quantize_uv_mv_idempotent (mv : ℚ) :
    quantize_uv_mv (quantize_uv_mv mv) = quantize_uv_mv mv := by
  unfold quantize_uv_mv
  have hscale : kUvMvScale ≠ 0 := by norm_num [kUvMvScale]
  rw [div_mul_cancel₀ _ hscale, llround_intCast]

/-- Failure modes of `mchbar_get_base` in `mchbar_base.h`. -/
inductive MchbarError
  | ioError
  | disabled
  | zeroBase
deriving DecidableEq

/-- Embeds `mchbar_get_base` from `mchbar_base.h`, after the host-bridge config path
has been found: `read_result` is the outcome of `mchbar_read_config_u64` on
the 8 bytes at config offset 0x48 (`none` models an open/seek failure, a
read error, or a short read).  Bit 0 is the enable bit; `~0xFFFULL` is
`0xFFFFFFFFFFFFF000`. -/
def mchbar_get_base (read_result : Option Nat) : Except MchbarError Nat :=
  match read_result with
  | none => .error .ioError
  | some val =>
    if val &&& 0x1 = 0 then .error .disabled
    else if val &&& 0xFFFFFFFFFFFFF000 = 0 then .error .zeroBase
    else .ok (val &&& 0xFFFFFFFFFFFFF000)

/-- C5: MMIO base resolution fails on a failed or short config read, fails
when enable bit 0 is clear, masks off the low 12 bits to form the base and
fails when that base is zero; in particular the read value
`0x00000000FEDC0001` resolves to base `0xFEDC0000`. -/
theorem mchbar_get_base_spec :
    mchbar_get_base none = .error .ioError ∧
      (∀ v, v &&& 0x1 = 0 → mchbar_get_base (some v) = .error .disabled) ∧
      (∀ v, v &&& 0x1 ≠ 0 → v &&& 0xFFFFFFFFFFFFF000 = 0 →
        mchbar_get_base (some v) = .error .zeroBase) ∧
      (∀ v, v &&& 0x1 ≠ 0 → v &&& 0xFFFFFFFFFFFFF000 ≠ 0 →
        mchbar_get_base (some v) = .ok (v &&& 0xFFFFFFFFFFFFF000)) ∧
      mchbar_get_base (some 0x00000000FEDC0001) = .ok 0xFEDC0000 := by
  refine ⟨rfl, ?_, ?_, ?_, by rfl⟩
  · intro v hv
    show (if v &&& 0x1 = 0 then _ else _) = _
    rw [if_pos hv]
  · intro v hv hz
    show (if v &&& 0x1 = 0 then _ else _) = _
    rw [if_neg hv, if_pos hz]
  · intro v hv hz
    show (if v &&& 0x1 = 0 then _ else _) = _
    rw [if_neg hv, if_neg hz]

/-- Witness for C5: the enable-clear case at `v = 0xFEDC0000` and the success
case at the spec's example value `0xFEDC0001`. -/
theorem mchbar_get_base_spec_witness :
    mchbar_get_base (some 0xFEDC0000) = .error .disabled ∧
      mchbar_get_base (some 0x00000000FEDC0001) = .ok 0xFEDC0000 :=
  ⟨mchbar_get_base_spec.2.1 0xFEDC0000 (by decide),
    mchbar_get_base_spec.2.2.2.2⟩

/-- The two package power-limit registers, as raw 64-bit values. -/
structure Regs where
  msr : Nat
  mmio : Nat
deriving DecidableEq

/-- Embeds `sync_msr_to_mmio` from the GUI source (`sync_limits` direction 1
in `limits_ui.c` is the same operation): read the current state, ask for
confirmation, then write the raw MSR value verbatim to the MMIO register —
no per-field decode or encode.  `read_ok` is whether the backend read
succeeds, `confirmed` the operator's dialog answer, `write_ok` whether the
backend write succeeds; on a failed read, a decline, or a failed write the
registers are untouched.  Assumes no external agent modifies the registers
between the read and the write. -/
def sync_msr_to_mmio (read_ok confirmed write_ok : Bool) (r : Regs) : Regs :=
  if read_ok ∧ confirmed ∧ write_ok then { r with mmio := r.msr } else r

/-- C7: the sync operation copies the MSR's full raw value verbatim into the
MMIO register, and it is idempotent: with no external modification, syncing
twice leaves the MMIO register with the same raw value as syncing once. -/
theorem sync_msr_to_mmio_idempotent (read_ok confirmed write_ok : Bool)
    (r : Regs) :
    (sync_msr_to_mmio read_ok confirmed write_ok
        (sync_msr_to_mmio read_ok confirmed write_ok r)).mmio =
      (sync_msr_to_mmio read_ok confirmed write_ok r).mmio ∧
      sync_msr_to_mmio true true true r = { msr := r.msr, mmio := r.msr } := by
  cases read_ok <;> cases confirmed <;> cases write_ok <;>
    simp [sync_msr_to_mmio]

/-- Embeds `struct ReadState` from the GUI source (the helper's parsed read-state).
`int` fields are `Int`, `double` fields are `ℚ`, `QString` fields are
`String`. -/
structure ReadState where
  power_unit : Int := 0
  unit_watts : ℚ := 0
  msr : Nat := 0
  mmio : Nat := 0
  core_type_supported : Bool := false
  p_cpus : String := ""
  e_cpus : String := ""
  u_cpus : String := ""
  p_ratio_valid : Bool := false
  e_ratio_valid : Bool := false
  p_ratio : Int := 0
  e_ratio : Int := 0
  p_ratio_cur_valid : Bool := false
  e_ratio_cur_valid : Bool := false
  p_ratio_cur : Int := 0
  e_ratio_cur : Int := 0
  core_uv_valid : Bool := false
  core_uv_mv : ℚ := 0
  core_uv_raw : String := ""

/-- Embeds `enum class Target` from the GUI source. -/
inductive Target
  | msr
  | mmio
  | both
deriving DecidableEq

/-- Embeds `update_units` from the GUI source, success flag only: fails when the
read state's `unit_watts` is not positive (its other effects set UI labels
and cache the unit, which do not feed the writes). -/
def update_units (state : ReadState) : Bool :=
  !(state.unit_watts ≤ 0)

/-- The environment of one `apply_limits_internal` invocation: the outcome
of the backend read, the operator's spin-box watt values, the operator's
answers to the three confirmation dialogs, whether each backend write would
succeed, and whether the powercap checkbox is checked. -/
structure ApplyEnv where
  read_result : Option ReadState
  pl1_w : ℚ
  pl2_w : ℚ
  confirm_msr : Bool
  confirm_mmio : Bool
  confirm_powercap : Bool
  msr_write_ok : Bool
  mmio_write_ok : Bool
  powercap_write_ok : Bool
  powercap_checked : Bool

/-- The observable outcome of one `apply_limits_internal` invocation: the
returned flag and the value written to each target (`none` when that write
was never performed). -/
structure ApplyResult where
  ok : Bool
  msr_written : Option Nat
  mmio_written : Option Nat
  powercap_written : Option (Nat × Nat)
deriving DecidableEq

/-- The kernel-powercap block at the end of `apply_limits_internal`:
microwatt conversion `llround(w * 1000000.0)`, zero check, optional
confirmation, then the write; any failure returns `false` keeping the
register writes already performed. -/
def powercap_leg (env : ApplyEnv) (confirm : Bool)
    (msrW mmioW : Option Nat) : ApplyResult :=
  if env.powercap_checked then
    if toU64 (llround (env.pl1_w * 1000000)) = 0 ∨
        toU64 (llround (env.pl2_w * 1000000)) = 0 then
      ⟨false, msrW, mmioW, none⟩
    else if confirm ∧ ¬ env.confirm_powercap then ⟨false, msrW, mmioW, none⟩
    else if ¬ env.powercap_write_ok then ⟨false, msrW, mmioW, none⟩
    else ⟨true, msrW, mmioW,
      some (toU64 (llround (env.pl1_w * 1000000)),
        toU64 (llround (env.pl2_w * 1000000)))⟩
  else ⟨true, msrW, mmioW, none⟩

/-- The MMIO block of `apply_limits_internal`: for target `Mmio` or `Both`,
encode against the MMIO raw value read, optionally confirm (declining
returns `false` at once), then write (a failed write returns `false` at
once).  Falls through to the powercap block. -/
def mmio_leg (env : ApplyEnv) (target : Target) (confirm : Bool)
    (state : ReadState) (pl1_units pl2_units : Nat)
    (msrW : Option Nat) : ApplyResult :=
  if target = .mmio ∨ target = .both then
    if confirm ∧ ¬ env.confirm_mmio then ⟨false, msrW, none, none⟩
    else if ¬ env.mmio_write_ok then ⟨false, msrW, none, none⟩
    else powercap_leg env confirm msrW
      (some (apply_pl_units state.mmio pl1_units pl2_units))
  else powercap_leg env confirm msrW none

/-- The MSR block of `apply_limits_internal`: for target `Msr` or `Both`,
encode against the MSR raw value read, optionally confirm (declining
returns `false` at once), then write (a failed write returns `false` at
once).  Falls through to the MMIO block. -/
def msr_leg (env : ApplyEnv) (target : Target) (confirm : Bool)
    (state : ReadState) (pl1_units pl2_units : Nat) : ApplyResult :=
  if target = .msr ∨ target = .both then
    if confirm ∧ ¬ env.confirm_msr then ⟨false, none, none, none⟩
    else if ¬ env.msr_write_ok then ⟨false, none, none, none⟩
    else mmio_leg env target confirm state pl1_units pl2_units
      (some (apply_pl_units state.msr pl1_units pl2_units))
  else mmio_leg env target confirm state pl1_units pl2_units none

/-- Embeds `apply_limits_internal` from the GUI source: read the helper state,
validate the unit scale (`update_units`), convert the requested watts
(`build_units`), then run the MSR, MMIO and powercap blocks in order with
early return on any failure.  (`do_refresh` only re-reads the display and
is omitted.) -/
def apply_limits_internal (env : ApplyEnv) (target : Target)
    (confirm : Bool) : ApplyResult :=
  match env.read_result with
  | none => ⟨false, none, none, none⟩
  | some state =>
    if update_units state = false then ⟨false, none, none, none⟩
    else
      match build_units state.unit_watts env.pl1_w env.pl2_w with
      | none => ⟨false, none, none, none⟩
      | some (pl1_units, pl2_units) =>
        msr_leg env target confirm state pl1_units pl2_units

theorem powercap_leg_written (env : ApplyEnv) (confirm : Bool)
    (msrW mmioW : Option Nat) :
    (powercap_leg env confirm msrW mmioW).msr_written = msrW ∧
      (powercap_leg env confirm msrW mmioW).mmio_written = mmioW := by
  unfold powercap_leg
  split
  · split
    · exact ⟨rfl, rfl⟩
    · split
      · exact ⟨rfl, rfl⟩
      · split
        · exact ⟨rfl, rfl⟩
        · exact ⟨rfl, rfl⟩
  · exact ⟨rfl, rfl⟩

theorem mmio_leg_written (env : ApplyEnv) (target : Target) (confirm : Bool)
    (st : ReadState) (u1 u2 : Nat) (msrW : Option Nat) :
    (mmio_leg env target confirm st u1 u2 msrW).msr_written = msrW ∧
      ∀ v, (mmio_leg env target confirm st u1 u2 msrW).mmio_written = some v →
        v = apply_pl_units st.mmio u1 u2 := by
  unfold mmio_leg
  split
  · split
    · simp
    · split
      · simp
      · refine ⟨(powercap_leg_written env confirm msrW _).1, fun v hv => ?_⟩
        rw [(powercap_leg_written env confirm msrW _).2] at hv
        exact (Option.some.inj hv).symm
  · refine ⟨(powercap_leg_written env confirm msrW none).1, fun v hv => ?_⟩
    rw [(powercap_leg_written env confirm msrW none).2] at hv
    cases hv

theorem msr_leg_written (env : ApplyEnv) (target : Target) (confirm : Bool)
    (st : ReadState) (u1 u2 : Nat) :
    (∀ v, (msr_leg env target confirm st u1 u2).msr_written = some v →
        v = apply_pl_units st.msr u1 u2) ∧
      ∀ v, (msr_leg env target confirm st u1 u2).mmio_written = some v →
        v = apply_pl_units st.mmio u1 u2 := by
  unfold msr_leg
  split
  · split
    · simp
    · split
      · simp
      · refine ⟨fun v hv => ?_, (mmio_leg_written env target confirm st u1 u2 _).2⟩
        rw [(mmio_leg_written env target confirm st u1 u2 _).1] at hv
        exact (Option.some.inj hv).symm
  · refine ⟨fun v hv => ?_, (mmio_leg_written env target confirm st u1 u2 none).2⟩
    rw [(mmio_leg_written env target confirm st u1 u2 none).1] at hv
    cases hv

/-- C6: in the apply-limits workflow, any value written to the MSR is the
encode of the MSR raw value that was read, and any value written to MMIO is
the encode of the MMIO raw value that was read — each target uses its own
last-read raw value, never the other register's. -/
theorem apply_limits_writes_own_raw (env : ApplyEnv) (target : Target)
    (confirm : Bool) (st : ReadState) (u1 u2 : Nat)
    (hr : env.read_result = some st)
    (hb : build_units st.unit_watts env.pl1_w env.pl2_w = some (u1, u2)) :
    (∀ v, (apply_limits_internal env target confirm).msr_written = some v →
        v = apply_pl_units st.msr u1 u2) ∧
      ∀ v, (apply_limits_internal env target confirm).mmio_written = some v →
        v = apply_pl_units st.mmio u1 u2 := by
  by_cases hu : update_units st = false
  · have heq : apply_limits_internal env target confirm =
        ⟨false, none, none, none⟩ := by
      simp [apply_limits_internal, hr, hu]
    rw [heq]
    simp
  · have hu' : update_units st = true := by
      cases h : update_units st
      · exact absurd h hu
      · rfl
    have heq : apply_limits_internal env target confirm =
        msr_leg env target confirm st u1 u2 := by
      simp [apply_limits_internal, hr, hu', hb]
    rw [heq]
    exact msr_leg_written env target confirm st u1 u2

/-- The example read state used for concrete workflow runs: unit scale 1 W,
MSR raw `0x42`, MMIO raw `0x8000000080000000` (so the two encodes differ). -/
def stBase : ReadState :=
  { unit_watts := 1, msr := 0x42, mmio := 0x8000000080000000 }

theorem update_units_stBase : update_units stBase = true := by
  show (!(decide ((1 : ℚ) ≤ 0))) = true
  rw [decide_eq_false (by norm_num : ¬ ((1 : ℚ) ≤ 0))]
  rfl

theorem build_units_one : build_units 1 55 157 = some (55, 157) := by
  have e1 : llround ((55 : ℚ) / 1) = 55 := by
    rw [show ((55 : ℚ) / 1) = ((55 : Int) : ℚ) by norm_num, llround_intCast]
  have e2 : llround ((157 : ℚ) / 1) = 157 := by
    rw [show ((157 : ℚ) / 1) = ((157 : Int) : ℚ) by norm_num, llround_intCast]
  have h1 : toU64 55 = 55 := by decide
  have h2 : toU64 157 = 157 := by decide
  unfold build_units
  rw [if_neg (by norm_num), e1, e2, h1, h2]
  norm_num

/-- A concrete environment in which the helper read succeeds, the conversion
succeeds, the MMIO write would succeed, but the MSR write fails. -/
def envMsrFail : ApplyEnv :=
  { read_result := some stBase, pl1_w := 55, pl2_w := 157,
    confirm_msr := true, confirm_mmio := true, confirm_powercap := true,
    msr_write_ok := false, mmio_write_ok := true, powercap_write_ok := true,
    powercap_checked := false }

/-- The same environment with the MSR write succeeding. -/
def envOk : ApplyEnv := { envMsrFail with msr_write_ok := true }

theorem apply_limits_envOk :
    apply_limits_internal envOk .both false =
      ⟨true, some (apply_pl_units 0x42 55 157),
        some (apply_pl_units 0x8000000080000000 55 157), none⟩ := by
  unfold apply_limits_internal
  show (if update_units stBase = false then _ else _) = _
  rw [update_units_stBase]
  norm_num
  rw [show build_units stBase.unit_watts envOk.pl1_w envOk.pl2_w =
    some (55, 157) from build_units_one]
  unfold msr_leg mmio_leg powercap_leg
  simp [envOk, envMsrFail, stBase]

/-- C4 counterexample: in this environment the read and the conversion
succeed and the MMIO write would succeed, but the MSR write fails; the
workflow returns failure with *no* MMIO write attempted — whereas the claim
says the MMIO write is still attempted.  (The last conjunct shows the same
run with a succeeding MSR write does perform both writes, so the MMIO write
was skipped solely because of the MSR failure.) -/
theorem apply_limits_both_counterexample :
    envMsrFail.msr_write_ok = false ∧
      envMsrFail.mmio_write_ok = true ∧
      apply_limits_internal envMsrFail .both false = ⟨false, none, none, none⟩ ∧
      apply_limits_internal envOk .both false =
        ⟨true, some (apply_pl_units 0x42 55 157),
          some (apply_pl_units 0x8000000080000000 55 157), none⟩ := by
  refine ⟨rfl, rfl, ?_, apply_limits_envOk⟩
  unfold apply_limits_internal
  show (if update_units stBase = false then _ else _) = _
  rw [update_units_stBase]
  norm_num
  rw [show build_units stBase.unit_watts envMsrFail.pl1_w envMsrFail.pl2_w =
    some (55, 157) from build_units_one]
  unfold msr_leg
  simp [envMsrFail, stBase]

/-- C4 (amended): in "Both" mode a failed MSR write is reported and aborts
the workflow immediately: the MMIO write is *not* attempted (sequential
fail-fast with early return, not independent best-effort per target). -/
theorem apply_limits_both_msr_fail_aborts (env : ApplyEnv) (confirm : Bool)
    (hmsr : env.msr_write_ok = false) :
    (apply_limits_internal env .both confirm).ok = false ∧
      (apply_limits_internal env .both confirm).msr_written = none ∧
      (apply_limits_internal env .both confirm).mmio_written = none ∧
      (apply_limits_internal env .both confirm).powercap_written = none := by
  cases hr : env.read_result with
  | none =>
    have heq : apply_limits_internal env .both confirm =
        ⟨false, none, none, none⟩ := by
      simp [apply_limits_internal, hr]
    rw [heq]
    exact ⟨rfl, rfl, rfl, rfl⟩
  | some st =>
    by_cases hu : update_units st = false
    · have heq : apply_limits_internal env .both confirm =
          ⟨false, none, none, none⟩ := by
        simp [apply_limits_internal, hr, hu]
      rw [heq]
      exact ⟨rfl, rfl, rfl, rfl⟩
    · have hu' : update_units st = true := by
        cases h : update_units st
        · exact absurd h hu
        · rfl
      cases hb : build_units st.unit_watts env.pl1_w env.pl2_w with
      | none =>
        have heq : apply_limits_internal env .both confirm =
            ⟨false, none, none, none⟩ := by
          simp [apply_limits_internal, hr, hu', hb]
        rw [heq]
        exact ⟨rfl, rfl, rfl, rfl⟩
      | some p =>
        obtain ⟨u1, u2⟩ := p
        have heq : apply_limits_internal env .both confirm =
            msr_leg env .both confirm st u1 u2 := by
          simp [apply_limits_internal, hr, hu', hb]
        rw [heq]
        unfold msr_leg
        rw [if_pos (Or.inr rfl)]
        by_cases hc : confirm ∧ ¬ env.confirm_msr
        · rw [if_pos hc]
          exact ⟨rfl, rfl, rfl, rfl⟩
        · rw [if_neg hc, if_pos (by rw [hmsr]; exact Bool.false_ne_true)]
          exact ⟨rfl, rfl, rfl, rfl⟩

/-- Witness for C4 (amended) at the concrete failing environment. -/
theorem apply_limits_both_msr_fail_aborts_witness :
    (apply_limits_internal envMsrFail .both false).ok = false ∧
      (apply_limits_internal envMsrFail .both false).msr_written = none ∧
      (apply_limits_internal envMsrFail .both false).mmio_written = none ∧
      (apply_limits_internal envMsrFail .both false).powercap_written = none :=
  apply_limits_both_msr_fail_aborts envMsrFail false rfl

/-- Witness for C6 at a concrete environment in which both writes happen:
the MSR write carries the encode of the MSR raw value and the MMIO write
the encode of the MMIO raw value. -/
theorem apply_limits_writes_own_raw_witness :
    (∀ v, (apply_limits_internal envOk .both false).msr_written = some v →
        v = apply_pl_units stBase.msr 55 157) ∧
      ∀ v, (apply_limits_internal envOk .both false).mmio_written = some v →
        v = apply_pl_units stBase.mmio 55 157 :=
  apply_limits_writes_own_raw envOk .both false stBase 55 157 rfl
    build_units_one

/-- C10: with confirmation enabled, declining any prompt fails the workflow
immediately: declining the MSR prompt performs no write at all; declining
the MMIO prompt (after a confirmed, successful MSR write) keeps the MSR
write but performs neither the MMIO nor the powercap write; declining the
powercap prompt keeps both register writes but performs no powercap write.
Nothing already written is rolled back. -/
theorem apply_limits_confirm_decline (env : ApplyEnv) (st : ReadState)
    (u1 u2 : Nat) (hr : env.read_result = some st)
    (hb : build_units st.unit_watts env.pl1_w env.pl2_w = some (u1, u2)) :
    (env.confirm_msr = false →
        apply_limits_internal env .both true = ⟨false, none, none, none⟩) ∧
      (env.confirm_msr = true → env.msr_write_ok = true →
        env.confirm_mmio = false →
        apply_limits_internal env .both true =
          ⟨false, some (apply_pl_units st.msr u1 u2), none, none⟩) ∧
      (env.confirm_msr = true → env.msr_write_ok = true →
        env.confirm_mmio = true → env.mmio_write_ok = true →
        env.powercap_checked = true →
        ¬ (toU64 (llround (env.pl1_w * 1000000)) = 0 ∨
            toU64 (llround (env.pl2_w * 1000000)) = 0) →
        env.confirm_powercap = false →
        apply_limits_internal env .both true =
          ⟨false, some (apply_pl_units st.msr u1 u2),
            some (apply_pl_units st.mmio u1 u2), none⟩) := by
  have hu' : update_units st = true := by
    cases h : update_units st
    · exfalso
      have hnone : build_units st.unit_watts env.pl1_w env.pl2_w = none := by
        have hle : st.unit_watts ≤ 0 := by
          by_contra hpos
          have : update_units st = true := by
            unfold update_units
            rw [decide_eq_false hpos]
            rfl
          rw [this] at h
          cases h
        unfold build_units
        rw [if_pos hle]
      rw [hnone] at hb
      cases hb
    · rfl
  have heq : apply_limits_internal env .both true =
      msr_leg env .both true st u1 u2 := by
    simp [apply_limits_internal, hr, hu', hb]
  refine ⟨?_, ?_, ?_⟩
  · intro hcm
    rw [heq]
    unfold msr_leg
    rw [if_pos (Or.inr rfl), if_pos (by simp [hcm])]
  · intro hcm hwm hcmm
    rw [heq]
    unfold msr_leg
    rw [if_pos (Or.inr rfl), if_neg (by simp [hcm]), if_neg (by simp [hwm])]
    unfold mmio_leg
    rw [if_pos (Or.inr rfl), if_pos (by simp [hcmm])]
  · intro hcm hwm hcmm hwmm hpc hpz hcp
    rw [heq]
    unfold msr_leg
    rw [if_pos (Or.inr rfl), if_neg (by simp [hcm]), if_neg (by simp [hwm])]
    unfold mmio_leg
    rw [if_pos (Or.inr rfl), if_neg (by simp [hcmm]), if_neg (by simp [hwmm])]
    unfold powercap_leg
    rw [if_pos hpc, if_neg hpz, if_pos (by simp [hcp])]

/-- A concrete environment whose MMIO confirmation prompt is declined after
a confirmed, successful MSR write. -/
def envDeclineMmio : ApplyEnv := { envOk with confirm_mmio := false }

/-- Witness for C10 at the concrete environment `envDeclineMmio`. -/
theorem apply_limits_confirm_decline_witness :
    (envDeclineMmio.confirm_msr = false →
        apply_limits_internal envDeclineMmio .both true =
          ⟨false, none, none, none⟩) ∧
      (envDeclineMmio.confirm_msr = true → envDeclineMmio.msr_write_ok = true →
        envDeclineMmio.confirm_mmio = false →
        apply_limits_internal envDeclineMmio .both true =
          ⟨false, some (apply_pl_units stBase.msr 55 157), none, none⟩) ∧
      (envDeclineMmio.confirm_msr = true → envDeclineMmio.msr_write_ok = true →
        envDeclineMmio.confirm_mmio = true → envDeclineMmio.mmio_write_ok = true →
        envDeclineMmio.powercap_checked = true →
        ¬ (toU64 (llround (envDeclineMmio.pl1_w * 1000000)) = 0 ∨
            toU64 (llround (envDeclineMmio.pl2_w * 1000000)) = 0) →
        envDeclineMmio.confirm_powercap = false →
        apply_limits_internal envDeclineMmio .both true =
          ⟨false, some (apply_pl_units stBase.msr 55 157),
            some (apply_pl_units stBase.mmio 55 157), none⟩) :=
  apply_limits_confirm_decline envDeclineMmio stBase 55 157 rfl build_units_one

/-- Embeds `QChar::isSpace` restricted to the ASCII whitespace a helper response
can contain. -/
def qIsSpace (c : Char) : Bool :=
  c = ' ' ∨ c = '\t' ∨ c = '\n' ∨ c = '\r' ∨ c = '\x0b' ∨ c = '\x0c'

/-- Embeds `QString::trimmed`. -/
def trimmed (cs : List Char) : List Char :=
  ((cs.dropWhile qIsSpace).reverse.dropWhile qIsSpace).reverse

/-- Embeds `QString::split` on one separator character, keeping empty parts (the
caller filters them out for `Qt::SkipEmptyParts`). -/
def splitOnChar (sep : Char) : List Char → List (List Char)
  | [] => [[]]
  | c :: cs =>
    match splitOnChar sep cs with
    | [] => [[]]
    | r :: rs => if c = sep then [] :: r :: rs else (c :: r) :: rs

/-- One line of the helper response, split at the first `=` as in
`parse_state` (`line.indexOf('=')`); a line without `=`, or with it at
position 0, is skipped. -/
def splitKeyValue (cs : List Char) : Option (List Char × List Char) :=
  match cs.findIdx? (fun c => c = '=') with
  | none => none
  | some i => if i = 0 then none else some (cs.take i, cs.drop (i + 1))

/-- The `values` hash built by `parse_state`: key and value are trimmed;
later inserts overwrite earlier ones (looked up from the tail). -/
def build_values : List (List Char) → List (List Char × List Char)
  | [] => []
  | line :: rest =>
    match splitKeyValue line with
    | none => build_values rest
    | some (k, v) => (trimmed k, trimmed v) :: build_values rest

/-- Embeds `QHash::value`: the most recently inserted value for the key, or the
default-constructed empty string when the key is absent. -/
def hash_value (m : List (List Char × List Char)) (k : List Char) :
    List Char :=
  match m.reverse.find? (fun p => p.1 == k) with
  | some p => p.2
  | none => []

def parseDigitsAux : List Char → Nat → Option Nat
  | [], acc => some acc
  | c :: cs, acc =>
    if c.isDigit then parseDigitsAux cs (acc * 10 + (c.toNat - 48)) else none

/-- A nonempty all-decimal-digit string, as a number. -/
def parseDigits (cs : List Char) : Option Nat :=
  match cs with
  | [] => none
  | _ => parseDigitsAux cs 0

/-- Embeds `QString::toInt` (default base 10, C locale): optional sign then digits,
required to fit a 32-bit `int`. -/
def qtoInt (cs : List Char) : Option Int :=
  match cs with
  | '-' :: rest =>
    (parseDigits rest).bind fun n =>
      if (n : Int) ≤ 2 ^ 31 then some (-(n : Int)) else none
  | '+' :: rest =>
    (parseDigits rest).bind fun n =>
      if (n : Int) < 2 ^ 31 then some ((n : Int)) else none
  | _ =>
    (parseDigits cs).bind fun n =>
      if (n : Int) < 2 ^ 31 then some ((n : Int)) else none

def parseHexDigitsAux : List Char → Nat → Option Nat
  | [], acc => some acc
  | c :: cs, acc =>
    if c.isDigit then parseHexDigitsAux cs (acc * 16 + (c.toNat - 48))
    else if 'a' ≤ c ∧ c ≤ 'f' then parseHexDigitsAux cs (acc * 16 + (c.toNat - 87))
    else if 'A' ≤ c ∧ c ≤ 'F' then parseHexDigitsAux cs (acc * 16 + (c.toNat - 55))
    else none

def parseOctalDigitsAux : List Char → Nat → Option Nat
  | [], acc => some acc
  | c :: cs, acc =>
    if '0' ≤ c ∧ c ≤ '7' then parseOctalDigitsAux cs (acc * 8 + (c.toNat - 48))
    else none

/-- Embeds `QString::toULongLong` with base 0 (C conventions: `0x` hex, leading `0`
octal, else decimal; no sign accepted for an unsigned conversion; must fit
64 bits). -/
def qtoULongLong (cs : List Char) : Option Nat :=
  let res :=
    match cs with
    | '0' :: 'x' :: r => if r.isEmpty then none else parseHexDigitsAux r 0
    | '0' :: 'X' :: r => if r.isEmpty then none else parseHexDigitsAux r 0
    | '0' :: r => parseOctalDigitsAux r 0
    | _ => parseDigits cs
  res.bind fun n => if n < 2 ^ 64 then some n else none

def splitAtChar (p : Char → Bool) (cs : List Char) :
    List Char × Option (List Char) :=
  match cs.findIdx? p with
  | none => (cs, none)
  | some i => (cs.take i, some (cs.drop (i + 1)))

/-- Decimal mantissa `digits[.digits]` (at least one digit overall), as an
exact rational. -/
def parseMantissa (cs : List Char) : Option ℚ :=
  match splitAtChar (fun c => c = '.') cs with
  | (ip, fopt) =>
    match ip ++ fopt.getD [], (fopt.getD []).length with
    | [], _ => none
    | ds, flen =>
      if ds.all Char.isDigit then
        match parseDigitsAux ds 0 with
        | none => none
        | some n => some ((n : ℚ) / 10 ^ flen)
      else none

def parseExponent (cs : List Char) : Option Int :=
  match cs with
  | '-' :: r => (parseDigits r).map fun n => -(n : Int)
  | '+' :: r => (parseDigits r).map fun n => ((n : Int))
  | _ => (parseDigits cs).map fun n => ((n : Int))

def qtoDoubleUnsigned (cs : List Char) : Option ℚ :=
  match splitAtChar (fun c => c = 'e' ∨ c = 'E') cs with
  | (m, none) => parseMantissa m
  | (m, some ecs) =>
    (parseMantissa m).bind fun q => (parseExponent ecs).map fun ex => q * 10 ^ ex

/-- Embeds `QString::toDouble` (C-locale decimal forms, idealised to exact
rationals; the `inf`/`nan` spellings and floating-point rounding are not
modelled — the helper emits plain decimal numbers). -/
def qtoDouble (cs : List Char) : Option ℚ :=
  match cs with
  | '-' :: r => (qtoDoubleUnsigned r).map fun q => -q
  | '+' :: r => qtoDoubleUnsigned r
  | _ => qtoDoubleUnsigned cs

def powerUnitKey : List Char := ("POWER_UNIT").data

def unitWattsKey : List Char := ("UNIT_WATTS").data

def msrKey : List Char := ("MSR").data

def mmioKey : List Char := ("MMIO").data

/-- The key/value hash `parse_state` builds from the helper's stdout:
nonempty lines (`Qt::SkipEmptyParts`), each split at its first `=`. -/
def state_values (out : String) : List (List Char × List Char) :=
  build_values ((splitOnChar '\n' out.data).filter (fun l => !l.isEmpty))

/-- Embeds `HelperBackend::parse_state`: the four required keys `POWER_UNIT`,
`UNIT_WATTS`, `MSR`, `MMIO` must parse (`&ok` checked, failure fails the
whole read); every other key defaults when absent or unparsable, exactly as
in the source. -/
def parse_state (out : String) : Option ReadState :=
  let values := state_values out
  match qtoInt (hash_value values powerUnitKey) with
  | none => none
  | some pu =>
    match qtoDouble (hash_value values unitWattsKey) with
    | none => none
    | some uw =>
      match qtoULongLong (hash_value values msrKey) with
      | none => none
      | some msrv =>
        match qtoULongLong (hash_value values mmioKey) with
        | none => none
        | some mmiov =>
          some
            { power_unit := pu, unit_watts := uw, msr := msrv, mmio := mmiov,
              core_type_supported :=
                qtoInt (hash_value values (("CORE_TYPE_SUPPORTED").data)) == some 1,
              p_cpus := String.mk (hash_value values (("P_CPUS").data)),
              e_cpus := String.mk (hash_value values (("E_CPUS").data)),
              u_cpus := String.mk (hash_value values (("U_CPUS").data)),
              p_ratio_valid :=
                qtoInt (hash_value values (("P_RATIO_VALID").data)) == some 1,
              e_ratio_valid :=
                qtoInt (hash_value values (("E_RATIO_VALID").data)) == some 1,
              p_ratio_cur_valid :=
                qtoInt (hash_value values (("P_RATIO_CUR_VALID").data)) == some 1,
              e_ratio_cur_valid :=
                qtoInt (hash_value values (("E_RATIO_CUR_VALID").data)) == some 1,
              p_ratio := (qtoInt (hash_value values (("P_RATIO_TARGET").data))).getD 0,
              e_ratio := (qtoInt (hash_value values (("E_RATIO_TARGET").data))).getD 0,
              p_ratio_cur := (qtoInt (hash_value values (("P_RATIO_CUR").data))).getD 0,
              e_ratio_cur := (qtoInt (hash_value values (("E_RATIO_CUR").data))).getD 0,
              core_uv_valid :=
                qtoInt (hash_value values (("CORE_UV_VALID").data)) == some 1,
              core_uv_mv := (qtoDouble (hash_value values (("CORE_UV_MV").data))).getD 0,
              core_uv_raw := String.mk (hash_value values (("CORE_UV_RAW").data)) }

/-- Whether the helper response contains a `KEY=VALUE` line for the key. -/
def has_state_key (out : String) (k : List Char) : Bool :=
  (state_values out).any (fun p => p.1 == k)

theorem hash_value_of_no_key (m : List (List Char × List Char))
    (k : List Char) (h : m.any (fun p => p.1 == k) = false) :
    hash_value m k = [] := by
  unfold hash_value
  have hf : m.reverse.find? (fun p => p.1 == k) = none := by
    rw [List.find?_eq_none]
    intro x hx
    have hx' : x ∈ m := List.mem_reverse.mp hx
    have := (List.any_eq_false.mp h) x hx'
    simp only [this]
    exact Bool.false_ne_true
  rw [hf]

/-- C8: parsing a helper read-state response fails whenever any required key
(`POWER_UNIT`, `UNIT_WATTS`, `MSR`, `MMIO`) is missing or unparsable — a
response succeeds exactly when all four parse — and in particular every
response text lacking one of these keys parses to a hard failure, never to a
state with defaulted register values. -/
theorem parse_state_requires_keys (out : String) :
    (parse_state out = none ↔
        (qtoInt (hash_value (state_values out) powerUnitKey) = none ∨
          qtoDouble (hash_value (state_values out) unitWattsKey) = none ∨
          qtoULongLong (hash_value (state_values out) msrKey) = none ∨
          qtoULongLong (hash_value (state_values out) mmioKey) = none)) ∧
      ((has_state_key out powerUnitKey = false ∨
          has_state_key out unitWattsKey = false ∨
          has_state_key out msrKey = false ∨
          has_state_key out mmioKey = false) →
        parse_state out = none) := by
  have hiff : parse_state out = none ↔
      (qtoInt (hash_value (state_values out) powerUnitKey) = none ∨
        qtoDouble (hash_value (state_values out) unitWattsKey) = none ∨
        qtoULongLong (hash_value (state_values out) msrKey) = none ∨
        qtoULongLong (hash_value (state_values out) mmioKey) = none) := by
    cases h1 : qtoInt (hash_value (state_values out) powerUnitKey) with
    | none => simp [parse_state, h1]
    | some pu =>
      cases h2 : qtoDouble (hash_value (state_values out) unitWattsKey) with
      | none => simp [parse_state, h1, h2]
      | some uw =>
        cases h3 : qtoULongLong (hash_value (state_values out) msrKey) with
        | none => simp [parse_state, h1, h2, h3]
        | some mv =>
          cases h4 : qtoULongLong (hash_value (state_values out) mmioKey) with
          | none => simp [parse_state, h1, h2, h3, h4]
          | some wv => simp [parse_state, h1, h2, h3, h4]
  refine ⟨hiff, fun hmiss => hiff.mpr ?_⟩
  rcases hmiss with h | h | h | h
  · exact Or.inl (by rw [hash_value_of_no_key _ _ h]; rfl)
  · exact Or.inr (Or.inl (by rw [hash_value_of_no_key _ _ h]; rfl))
  · exact Or.inr (Or.inr (Or.inl (by rw [hash_value_of_no_key _ _ h]; rfl)))
  · exact Or.inr (Or.inr (Or.inr (by rw [hash_value_of_no_key _ _ h]; rfl)))

/-- Witness for C8: a response carrying `POWER_UNIT`, `UNIT_WATTS` and `MSR`
but lacking the required `MMIO` key fails to parse. -/
theorem parse_state_requires_keys_witness :
    parse_state ("POWER_UNIT=3\nUNIT_WATTS=0.125\nMSR=0x10") = none :=
  (parse_state_requires_keys ("POWER_UNIT=3\nUNIT_WATTS=0.125\nMSR=0x10")).2
    (Or.inr (Or.inr (Or.inr (by decide))))

end LimitsDroper
